import Mathlib

/-!
Shallow embedding of the Super_Simple_Stock_Market repository
(src/stockmarket/stock/models.py, src/stockmarket/exchange/market.py)
and proofs about the embedded operations.

Modelling conventions:
* Python floats are embedded as `Rat` (the formulas involve only field
  operations and comparisons, which are exact here).
* Python `datetime` instants are embedded as `Rat`, measured in minutes, so
  that `timedelta(minutes=m)` is subtraction of `m`; `datetime.now()` is an
  explicit `now : Rat` parameter threaded through each operation.
* Python exceptions are embedded as the `PyErr` sum type; fallible operations
  return `Except PyErr α`.  A raise that happens before any mutation is
  embedded as an `.error` result carrying no new state, which is faithful
  because every raise in this code happens before the mutation point.
* The Python class hierarchy (abstract `Stock` with concrete `CommonStock`
  and `PreferredStock`) is embedded as one structure with a `variant` tag;
  `calculate_dividend_yield` dispatches on the tag, exactly mirroring the
  two overriding method bodies.
-/

/-- Exceptions that the embedded code can raise.  `valueError`, `typeError`
and `keyError` embed the Python builtins of the same names;
`invalidTradeError` and `noTradeError` embed `InvalidTradeError` and
`NoTradeError` from src/stockmarket/stock/exceptions.py. -/
inductive PyErr where
  | valueError (msg : String)
  | typeError (msg : String)
  | keyError (msg : String)
  | invalidTradeError (msg : String)
  | noTradeError (msg : String)
deriving DecidableEq, Repr

/-- Embeds `StockType` from src/stockmarket/stock/enums.py (values
"common" and "preferred"). -/
inductive StockType where
  | COMMON
  | PREFERRED
deriving DecidableEq, Repr

/-- Embeds `TradeType` from src/stockmarket/stock/enums.py (values
"buy" and "sell"). -/
inductive TradeType where
  | BUY
  | SELL
deriving DecidableEq, Repr

/-- Embeds the frozen dataclass `Trade` from
src/stockmarket/stock/models.py. -/
structure Trade where
  stock_symbol : String
  trade_type : TradeType
  quantity : Int
  price : Rat
  timestamp : Rat
deriving DecidableEq, Repr

/-- Tag distinguishing the two concrete subclasses of the abstract Python
class `Stock`: `CommonStock` and `PreferredStock`. -/
inductive StockVariant where
  | common
  | preferred
deriving DecidableEq, Repr

/-- Embeds a Python `Stock` instance (src/stockmarket/stock/models.py):
the five attributes set by `Stock.__init__` plus the `trades` list, together
with the `variant` tag recording which concrete subclass the instance
belongs to. -/
structure Stock where
  variant : StockVariant
  symbol : String
  stock_type : StockType
  last_dividend : Rat
  fixed_dividend : Rat
  par_value : Rat
  trades : List Trade
deriving DecidableEq, Repr

/-- Embeds `CommonStock.calculate_dividend_yield` and
`PreferredStock.calculate_dividend_yield` (models.py): both raise
`ValueError("Price must be greater than zero.")` when `price <= 0`;
otherwise the common variant returns `last_dividend / price` and the
preferred variant returns `(fixed_dividend * par_value) / price`. -/
def Stock.calculate_dividend_yield (s : Stock) (price : Rat) : Except PyErr Rat :=
  match s.variant with
  | .common =>
      if price ≤ 0 then .error (.valueError "Price must be greater than zero.")
      else .ok (s.last_dividend / price)
  | .preferred =>
      if price ≤ 0 then .error (.valueError "Price must be greater than zero.")
      else .ok (s.fixed_dividend * s.par_value / price)

/-- Embeds `Stock.calculate_pe_ratio` (models.py): computes
`dividend = calculate_dividend_yield(price) * price` (propagating any
exception from the yield calculation), raises
`ValueError("Dividend is zero, P/E Ratio is undefined.")` when the dividend
is zero, and otherwise returns `price / dividend`. -/
def Stock.calculate_pe_ratio (s : Stock) (price : Rat) : Except PyErr Rat :=
  match s.calculate_dividend_yield price with
  | .error e => .error e
  | .ok y =>
      let dividend := y * price
      if dividend = 0 then .error (.valueError "Dividend is zero, P/E Ratio is undefined.")
      else .ok (price / dividend)

/-- Embeds `Stock.record_trade` (models.py): builds a `Trade` with the
symbol of the stock, the given direction, quantity and price, and the given
timestamp (or `now` when the caller omitted it), appends it to the trades
list, and returns it.  The result pairs the returned trade with the updated
stock state. -/
def Stock.record_trade (s : Stock) (trade_type : TradeType) (quantity : Int)
    (price : Rat) (timestamp : Option Rat) (now : Rat) : Trade × Stock :=
  let ts := timestamp.getD now
  let trade : Trade :=
    { stock_symbol := s.symbol, trade_type := trade_type, quantity := quantity,
      price := price, timestamp := ts }
  (trade, { s with trades := s.trades ++ [trade] })

/-- Embeds `Stock.get_trades_in_last_minutes` (models.py): the trades whose
timestamp is at least `now - timedelta(minutes=minutes)`, in list order. -/
def Stock.get_trades_in_last_minutes (s : Stock) (now : Rat) (minutes : Int) :
    List Trade :=
  s.trades.filter (fun t => decide (now - (minutes : Rat) ≤ t.timestamp))

/-- The exact message of the exception `Stock.calculate_volume_weighted_stock_price`
raises when no quantity is available (models.py). -/
def noTradesMsg : String :=
  "No trades in the given time frame to calculate Volume Weighted Stock Price."

/-- Embeds `Stock.calculate_volume_weighted_stock_price` (models.py): over
the trades of the lookback window it sums `price * quantity` and `quantity`;
when the total quantity is zero it raises a `ValueError` (note: the code
raises `ValueError`, not the `NoTradeError` type defined in
src/stockmarket/stock/exceptions.py), otherwise it returns the quotient. -/
def Stock.calculate_volume_weighted_stock_price (s : Stock) (now : Rat)
    (minutes : Int) : Except PyErr Rat :=
  let recent_trades := s.get_trades_in_last_minutes now minutes
  let total_trade_price_quantity :=
    (recent_trades.map (fun t => t.price * (t.quantity : Rat))).sum
  let total_quantity : Int := (recent_trades.map (fun t => t.quantity)).sum
  if total_quantity = 0 then .error (.valueError noTradesMsg)
  else .ok (total_trade_price_quantity / (total_quantity : Rat))

/-- Keyword arguments of a Python call to `Stock.__init__`
(src/stockmarket/stock/models.py): one optional slot per parameter of the
signature `(symbol, stock_type, last_dividend, fixed_dividend, par_value)`,
none of which has a default value. -/
structure StockInitKwargs where
  symbol : Option String
  stock_type : Option StockType
  last_dividend : Option Rat
  fixed_dividend : Option Rat
  par_value : Option Rat
deriving DecidableEq, Repr

/-- Embeds a Python call `CommonStock(...)` or `PreferredStock(...)` with
keyword arguments.  Both subclasses inherit `Stock.__init__`, whose five
parameters are all required, so Python raises a `TypeError` before the body
runs when any of them is missing; otherwise the body sets the five
attributes and an empty trades list.  (The exact `TypeError` message text is
abbreviated.) -/
def Stock.callInit (variant : StockVariant) (kw : StockInitKwargs) :
    Except PyErr Stock :=
  match kw.symbol, kw.stock_type, kw.last_dividend, kw.fixed_dividend, kw.par_value with
  | some symbol, some stock_type, some last_dividend, some fixed_dividend,
    some par_value =>
      .ok { variant, symbol, stock_type, last_dividend, fixed_dividend,
            par_value, trades := [] }
  | _, _, _, _, _ =>
      .error (.typeError "__init__ missing required positional arguments")

/-- Embeds the GBCE market state (src/stockmarket/exchange/market.py): the
`stocks` dict, as an insertion-ordered association list from symbol keys to
stock states (Python dicts preserve insertion order; the public interface
never creates duplicate keys). -/
structure GBCE where
  stocks : List (String × Stock)
deriving DecidableEq, Repr

/-- Embeds Python dict assignment `d[k] = v`: when the key is present the
entry is overwritten in place (keeping its position), otherwise the new
entry is appended at the end. -/
def dictSet (l : List (String × Stock)) (k : String) (v : Stock) :
    List (String × Stock) :=
  if l.any (fun p => p.1 == k) then
    l.map (fun p => if p.1 == k then (k, v) else p)
  else l ++ [(k, v)]

/-- Embeds `GBCE.__init__` (market.py): builds the five seed stocks with the
exact keyword arguments of the source — each call omits `stock_type`, and
the four `CommonStock` calls also omit `fixed_dividend`, both required
parameters of `Stock.__init__` — and, when every construction succeeds,
returns the dict keyed by the five symbols in source order. -/
def GBCE.init : Except PyErr GBCE := do
  let tea ← Stock.callInit .common
    ⟨some "TEA", none, some 0, none, some 100⟩
  let pop ← Stock.callInit .common
    ⟨some "POP", none, some 8, none, some 100⟩
  let ale ← Stock.callInit .common
    ⟨some "ALE", none, some 23, none, some 60⟩
  let gin ← Stock.callInit .preferred
    ⟨some "GIN", none, some 8, some 0.02, some 100⟩
  let joe ← Stock.callInit .common
    ⟨some "JOE", none, some 13, none, some 250⟩
  pure ⟨[("TEA", tea), ("POP", pop), ("ALE", ale), ("GIN", gin), ("JOE", joe)]⟩

/-- Embeds `GBCE.add_Stock` (market.py): `self.stocks[stock.symbol] = stock`. -/
def GBCE.add_Stock (m : GBCE) (stock : Stock) : GBCE :=
  ⟨dictSet m.stocks stock.symbol stock⟩

/-- Embeds `GBCE.get_stock` (market.py): `self.stocks.get(symbol)`, which is
`None` when the key is absent. -/
def GBCE.get_stock (m : GBCE) (symbol : String) : Option Stock :=
  (m.stocks.find? (fun p => p.1 == symbol)).map Prod.snd

/-- Embeds `GBCE.list_stocks` (market.py): `list(self.stocks.values())`. -/
def GBCE.list_stocks (m : GBCE) : List Stock :=
  m.stocks.map Prod.snd

/-- Embeds `GBCE.record_trade` (market.py): raises `InvalidTradeError` when
`quantity <= 0`; then looks the symbol up and, when present, delegates to
`stock.record_trade(trade_type, quantity, price)` with no timestamp (so the
trade is stamped `now`); when absent raises a `KeyError`.  (The quotation
marks that the Python message puts around the symbol are dropped.) -/
def GBCE.record_trade (m : GBCE) (symbol : String) (trade_type : TradeType)
    (quantity : Int) (price : Rat) (now : Rat) : Except PyErr GBCE :=
  if quantity ≤ 0 then
    .error (.invalidTradeError "Trade quantity must be greater than zero.")
  else
    match m.get_stock symbol with
    | some stock =>
        let res := stock.record_trade trade_type quantity price none now
        .ok ⟨dictSet m.stocks symbol res.2⟩
    | none =>
        .error (.keyError ("Stock with symbol " ++ symbol ++ " not found in the market."))

/-- Embeds the price-collecting loop of `GBCE.calculate_gbce_all_share_index`
(market.py): for each stock in dict order, call
`calculate_volume_weighted_stock_price()` with the default 5-minute window;
an exception that is a `NoTradeError` is caught and the stock skipped, any
other exception propagates; a returned price is kept when it is strictly
positive. -/
def collectIndexPrices (stocks : List Stock) (now : Rat) :
    Except PyErr (List Rat) :=
  match stocks with
  | [] => .ok []
  | stock :: rest =>
      match stock.calculate_volume_weighted_stock_price now 5 with
      | .error (.noTradeError m) =>
          let _ := m
          collectIndexPrices rest now
      | .error e => .error e
      | .ok price =>
          match collectIndexPrices rest now with
          | .error e => .error e
          | .ok prices => .ok (if 0 < price then price :: prices else prices)

/-- The list of prices that `GBCE.calculate_gbce_all_share_index` aggregates,
built by `collectIndexPrices` over `self.stocks.values()`. -/
def GBCE.gbce_index_prices (m : GBCE) (now : Rat) : Except PyErr (List Rat) :=
  collectIndexPrices (m.stocks.map Prod.snd) now

/-- Geometric mean `prod(prices) ** (1 / len(prices))` over the reals
(embedding the float power of market.py). -/
noncomputable def geometricMean (prices : List Rat) : ℝ :=
  ((prices.map (fun q => (q : ℝ))).prod) ^ ((1 : ℝ) / (prices.length : ℝ))

/-- Embeds `GBCE.calculate_gbce_all_share_index` (market.py): collect the
prices (propagating any uncaught exception), return `0.0` when none were
collected, and otherwise the geometric mean. -/
noncomputable def GBCE.calculate_gbce_all_share_index (m : GBCE) (now : Rat) :
    Except PyErr ℝ :=
  match m.gbce_index_prices now with
  | .error e => .error e
  | .ok prices => if prices = [] then .ok 0 else .ok (geometricMean prices)

/-- Markets reachable through the public interface of `GBCE`: a starting
state in which every trade history is empty (the seed stocks of
`GBCE.__init__` and every freshly constructed stock have `trades = []`),
closed under `add_Stock` with a freshly constructed stock and under
successful `record_trade` calls. -/
inductive GBCE.Reachable : GBCE → Prop where
  | base (m : GBCE) : (∀ p ∈ m.stocks, p.2.trades = []) → GBCE.Reachable m
  | add (m : GBCE) (s : Stock) : GBCE.Reachable m → s.trades = [] →
      GBCE.Reachable (m.add_Stock s)
  | record (m m' : GBCE) (symbol : String) (trade_type : TradeType)
      (quantity : Int) (price now : Rat) : GBCE.Reachable m →
      m.record_trade symbol trade_type quantity price now = .ok m' →
      GBCE.Reachable m'

/-- Example common stock, as the tests construct it
(symbol TEST1, last dividend 8, par value 100, no trades). -/
def exCommon : Stock :=
  { variant := .common, symbol := "TEST1", stock_type := .COMMON,
    last_dividend := 8, fixed_dividend := 0, par_value := 100, trades := [] }

/-- Example preferred stock (symbol PTEST, fixed dividend 0.02 = 1/50,
par value 100, no trades). -/
def exPreferred : Stock :=
  { variant := .preferred, symbol := "PTEST", stock_type := .PREFERRED,
    last_dividend := 8, fixed_dividend := 1/50, par_value := 100, trades := [] }

/-- Example market holding one security whose trade history is empty. -/
def exMarketNoTrades : GBCE := ⟨[("TEST1", exCommon)]⟩

/-- Example trade inside a 15 minute window ending at instant 0. -/
def exTradeBuy : Trade :=
  { stock_symbol := "TEST1", trade_type := .BUY, quantity := 100,
    price := 110, timestamp := -10 }

/-- Second example trade inside the window. -/
def exTradeSell : Trade :=
  { stock_symbol := "TEST1", trade_type := .SELL, quantity := 50,
    price := 130, timestamp := -5 }

/-- Example trade outside the 15 minute window. -/
def exTradeOld : Trade :=
  { stock_symbol := "TEST1", trade_type := .BUY, quantity := 200,
    price := 120, timestamp := -20 }

/-- Example stock holding the three example trades. -/
def exStockTraded : Stock :=
  { exCommon with trades := [exTradeBuy, exTradeSell, exTradeOld] }

/-- A trade with positive quantity and negative price, as the market accepts
it (it validates only the quantity). -/
def exNegTrade : Trade :=
  { stock_symbol := "TEST1", trade_type := .BUY, quantity := 1,
    price := -1, timestamp := 0 }

/-- The market state reached from `exMarketNoTrades` by recording a BUY of
quantity 1 at price -1 at instant 0. -/
def exMarketNegPrice : GBCE :=
  ⟨[("TEST1", { exCommon with trades := [exNegTrade] })]⟩

/-- C2: the claim says the default construction of the market succeeds and
yields the five seed securities; on the code it fails: `GBCE.__init__` calls
the stock constructors without the required `stock_type` (and, for the
common stocks, `fixed_dividend`) parameters of `Stock.__init__`, so the very
first construction raises a `TypeError`. -/
theorem C2_default_market_construction_fails :
    GBCE.init = .error (.typeError "__init__ missing required positional arguments") := by
  rfl

/-- C1: the claim says a no-trades failure inside the all share index is
caught and the security skipped; on the code it is not: the volume weighted
price raises a `ValueError`, the except clause catches only `NoTradeError`,
so at a market holding one security with an empty trade history the failure
propagates out of the index calculation instead of yielding 0.0. -/
theorem C1_noTrades_failure_propagates :
    GBCE.gbce_index_prices exMarketNoTrades 0 = .error (.valueError noTradesMsg) ∧
    GBCE.calculate_gbce_all_share_index exMarketNoTrades 0 =
      .error (.valueError noTradesMsg) := by
  exact ⟨rfl, rfl⟩

/-- C4: for both variants, the dividend yield fails with the invalid-price
`ValueError` exactly on nonpositive prices; on a positive price the common
variant returns `last_dividend / price` and the preferred variant returns
`fixed_dividend * par_value / price`. -/
theorem C4_dividend_yield_spec (s : Stock) (p : Rat) :
    (p ≤ 0 → s.calculate_dividend_yield p =
        .error (.valueError "Price must be greater than zero.")) ∧
    (0 < p → s.variant = .common →
        s.calculate_dividend_yield p = .ok (s.last_dividend / p)) ∧
    (0 < p → s.variant = .preferred →
        s.calculate_dividend_yield p = .ok (s.fixed_dividend * s.par_value / p)) := by
  refine ⟨fun h => ?_, fun h hv => ?_, fun h hv => ?_⟩
  · unfold Stock.calculate_dividend_yield
    cases s.variant <;> simp [h]
  · unfold Stock.calculate_dividend_yield
    rw [hv]
    simp [not_le.mpr h]
  · unfold Stock.calculate_dividend_yield
    rw [hv]
    simp [not_le.mpr h]

/-- Witness for C4 at concrete inputs: price -1 fails, price 100 gives 8/100
for the common example and (1/50)*100/100 for the preferred example. -/
theorem C4_dividend_yield_witness :
    exCommon.calculate_dividend_yield (-1) =
      .error (.valueError "Price must be greater than zero.") ∧
    exCommon.calculate_dividend_yield 100 = .ok (exCommon.last_dividend / 100) ∧
    exPreferred.calculate_dividend_yield 100 =
      .ok (exPreferred.fixed_dividend * exPreferred.par_value / 100) :=
  ⟨(C4_dividend_yield_spec exCommon (-1)).1 (by norm_num),
   (C4_dividend_yield_spec exCommon 100).2.1 (by norm_num) rfl,
   (C4_dividend_yield_spec exPreferred 100).2.2 (by norm_num) rfl⟩

/-- Helper: unfolding of the P/E ratio when the dividend yield succeeds. -/
theorem pe_ratio_of_yield (s : Stock) (p y : Rat)
    (h : s.calculate_dividend_yield p = .ok y) :
    s.calculate_pe_ratio p =
      if y * p = 0 then
        .error (.valueError "Dividend is zero, P/E Ratio is undefined.")
      else .ok (p / (y * p)) := by
  unfold Stock.calculate_pe_ratio
  rw [h]

/-- C5: whenever the dividend yield succeeds with value y, the P/E ratio is
the zero-dividend `ValueError` exactly when `y * price = 0` and
`price / (y * price)` otherwise, for both variants (the statement is over an
arbitrary stock). -/
theorem C5_pe_ratio_spec (s : Stock) (p y : Rat)
    (h : s.calculate_dividend_yield p = .ok y) :
    s.calculate_pe_ratio p =
      if y * p = 0 then
        .error (.valueError "Dividend is zero, P/E Ratio is undefined.")
      else .ok (p / (y * p)) :=
  pe_ratio_of_yield s p y h

/-- Witness for C5 at a concrete input: the common example at price 100 has
yield 8/100, nonzero dividend 8, and P/E ratio 100/8. -/
theorem C5_pe_ratio_witness :
    exCommon.calculate_pe_ratio 100 = .ok (100 / ((8/100 : Rat) * 100)) := by
  have h := C5_pe_ratio_spec exCommon 100 (8/100) (by rfl)
  rw [h, if_neg (by norm_num)]

/-- C9: away from the zero boundary the literal computation path of the P/E
ratio cancels: for a positive price at which the dividend yield succeeds
with a nonzero value y, the ratio equals 1 / y. -/
theorem C9_pe_ratio_reciprocal (s : Stock) (p y : Rat) (hp : 0 < p)
    (h : s.calculate_dividend_yield p = .ok y) (hy : y ≠ 0) :
    s.calculate_pe_ratio p = .ok (1 / y) := by
  have hyp : y * p ≠ 0 := mul_ne_zero hy (ne_of_gt hp)
  rw [pe_ratio_of_yield s p y h, if_neg hyp]
  congr 1
  rw [mul_comm y p, ← div_div, div_self (ne_of_gt hp)]

/-- Witness for C9 at a concrete input: the common example at price 100 has
yield 8/100 and P/E ratio the reciprocal of that yield. -/
theorem C9_pe_ratio_witness :
    exCommon.calculate_pe_ratio 100 = .ok (1 / ((8:Rat)/100)) :=
  C9_pe_ratio_reciprocal exCommon 100 (8/100) (by norm_num) (by rfl) (by norm_num)

/-- C7: a market-level trade with nonpositive quantity fails with
`InvalidTradeError` for every market state and every symbol; the check comes
before the symbol lookup and before any delegation, and the error result
carries no new state, so no trade history changes. -/
theorem C7_invalid_quantity_rejected (m : GBCE) (symbol : String)
    (trade_type : TradeType) (quantity : Int) (price now : Rat)
    (h : quantity ≤ 0) :
    m.record_trade symbol trade_type quantity price now =
      .error (.invalidTradeError "Trade quantity must be greater than zero.") := by
  unfold GBCE.record_trade
  rw [if_pos h]

/-- Witness for C7 at a concrete input: quantity -10 on a present symbol. -/
theorem C7_invalid_quantity_witness :
    GBCE.record_trade exMarketNoTrades "TEST1" .BUY (-10) 100 0 =
      .error (.invalidTradeError "Trade quantity must be greater than zero.") :=
  C7_invalid_quantity_rejected exMarketNoTrades "TEST1" .BUY (-10) 100 0 (by decide)

/-- C8: a market-level trade with positive quantity on a symbol absent from
the mapping fails with the `KeyError` (the UnknownSecurity failure of the
specification); the error result carries no new state, so the mapping is
unchanged.  The positive-quantity hypothesis reflects the specification
ordering, which validates the quantity before the lookup. -/
theorem C8_unknown_symbol_rejected (m : GBCE) (symbol : String)
    (trade_type : TradeType) (quantity : Int) (price now : Rat)
    (hq : 0 < quantity) (habs : m.get_stock symbol = none) :
    m.record_trade symbol trade_type quantity price now =
      .error (.keyError ("Stock with symbol " ++ symbol ++ " not found in the market.")) := by
  unfold GBCE.record_trade
  rw [if_neg (not_le.mpr hq), habs]

/-- Witness for C8 at a concrete input: the empty market and symbol NOPE. -/
theorem C8_unknown_symbol_witness :
    GBCE.record_trade ⟨[]⟩ "NOPE" .SELL 10 50 0 =
      .error (.keyError ("Stock with symbol " ++ "NOPE" ++ " not found in the market.")) :=
  C8_unknown_symbol_rejected ⟨[]⟩ "NOPE" .SELL 10 50 0 (by decide) (by rfl)

/-- Helper: unfolding of the volume weighted stock price as one conditional
on the total quantity of the windowed trades. -/
theorem vwsp_eq_if (s : Stock) (now : Rat) (minutes : Int) :
    s.calculate_volume_weighted_stock_price now minutes =
      if ((s.get_trades_in_last_minutes now minutes).map (fun t => t.quantity)).sum = 0
      then .error (.valueError noTradesMsg)
      else .ok (((s.get_trades_in_last_minutes now minutes).map
            (fun t => t.price * (t.quantity : Rat))).sum /
          ((((s.get_trades_in_last_minutes now minutes).map
            (fun t => t.quantity)).sum : Int) : Rat)) :=
  rfl

/-- C6: the volume weighted price fails with the no-trades error exactly
when the windowed trade set is empty or its total quantity is zero;
otherwise it returns the quantity-weighted average over exactly the windowed
trades; and the windowed set is the timestamp filter of the history, so
trades outside the window contribute to neither sum. -/
theorem C6_vwsp_spec (s : Stock) (now : Rat) (minutes : Int) :
    (s.calculate_volume_weighted_stock_price now minutes =
        .error (.valueError noTradesMsg) ↔
      (s.get_trades_in_last_minutes now minutes = [] ∨
        ((s.get_trades_in_last_minutes now minutes).map (fun t => t.quantity)).sum = 0)) ∧
    (((s.get_trades_in_last_minutes now minutes).map (fun t => t.quantity)).sum ≠ 0 →
      s.calculate_volume_weighted_stock_price now minutes =
        .ok (((s.get_trades_in_last_minutes now minutes).map
              (fun t => t.price * (t.quantity : Rat))).sum /
            ((((s.get_trades_in_last_minutes now minutes).map
              (fun t => t.quantity)).sum : Int) : Rat))) ∧
    s.get_trades_in_last_minutes now minutes =
      s.trades.filter (fun t => decide (now - (minutes : Rat) ≤ t.timestamp)) := by
  refine ⟨?_, ?_, rfl⟩
  · rw [vwsp_eq_if]
    by_cases hq : ((s.get_trades_in_last_minutes now minutes).map
        (fun t => t.quantity)).sum = 0
    · rw [if_pos hq]
      exact ⟨fun _ => Or.inr hq, fun _ => rfl⟩
    · rw [if_neg hq]
      refine ⟨fun h => absurd h (by simp), fun h => absurd ?_ hq⟩
      rcases h with h | h
      · rw [h]; rfl
      · exact h
  · intro hq
    rw [vwsp_eq_if, if_neg hq]

/-- Witness for C6 at a concrete input: with two trades of quantities 100
and 50 at prices 110 and 130 inside the window and one trade outside it, the
volume weighted price is (100*110 + 50*130) / 150 = 350/3. -/
theorem C6_vwsp_witness :
    exStockTraded.calculate_volume_weighted_stock_price 0 15 = .ok (350/3) := by
  have h := (C6_vwsp_spec exStockTraded 0 15).2.1 (by
    norm_num [Stock.get_trades_in_last_minutes, exStockTraded, exCommon,
      exTradeBuy, exTradeSell, exTradeOld, List.filter_cons])
  rw [h]
  norm_num [Stock.get_trades_in_last_minutes, exStockTraded, exCommon,
    exTradeBuy, exTradeSell, exTradeOld, List.filter_cons]

/-- Helper: every entry of a dict after an assignment is an old entry or the
new binding. -/
theorem mem_dictSet (l : List (String × Stock)) (k : String) (v : Stock)
    (p : String × Stock) (hp : p ∈ dictSet l k v) : p ∈ l ∨ p = (k, v) := by
  unfold dictSet at hp
  by_cases h : l.any (fun q => q.1 == k) = true
  · rw [if_pos h] at hp
    rcases List.mem_map.mp hp with ⟨q, hq, hqe⟩
    by_cases hk : (q.1 == k) = true
    · rw [if_pos hk] at hqe
      exact Or.inr hqe.symm
    · rw [if_neg hk] at hqe
      exact Or.inl (hqe ▸ hq)
  · rw [if_neg h] at hp
    rcases List.mem_append.mp hp with h1 | h1
    · exact Or.inl h1
    · exact Or.inr (List.mem_singleton.mp h1)

/-- Helper: an assignment whose key is already bound keeps the key list of
the dict unchanged. -/
theorem dictSet_keys_of_mem (l : List (String × Stock)) (k : String) (v : Stock)
    (h : l.any (fun q => q.1 == k) = true) :
    (dictSet l k v).map Prod.fst = l.map Prod.fst := by
  unfold dictSet
  rw [if_pos h, List.map_map]
  apply List.map_congr_left
  intro q _
  by_cases hk : (q.1 == k) = true
  · simp only [Function.comp_apply, if_pos hk]
    exact (beq_iff_eq.mp hk).symm
  · simp only [Function.comp_apply, if_neg hk]

/-- Helper: after overwriting the binding of a present key, lookup of that
key finds the new binding. -/
theorem find?_setEntry_self (l : List (String × Stock)) (k : String) (v : Stock)
    (h : l.any (fun q => q.1 == k) = true) :
    (l.map (fun q => if q.1 == k then (k, v) else q)).find? (fun q => q.1 == k) =
      some (k, v) := by
  induction l with
  | nil => simp at h
  | cons a t ih =>
    rw [List.map_cons]
    by_cases hk : (a.1 == k) = true
    · rw [if_pos hk]
      exact List.find?_cons_of_pos (p := fun (q : String × Stock) => q.1 == k) _ (beq_self_eq_true k)
    · rw [if_neg hk]
      rw [List.find?_cons_of_neg (p := fun (q : String × Stock) => q.1 == k) _ hk]
      exact ih (by simpa [List.any_cons, hk] using h)

/-- Helper: overwriting the binding at one key leaves lookup of a different
key unchanged (overwrite branch of the dict assignment). -/
theorem find?_setEntry_other (l : List (String × Stock)) (k k' : String)
    (v : Stock) (hne : k' ≠ k) :
    (l.map (fun q => if q.1 == k then (k, v) else q)).find? (fun q => q.1 == k') =
      l.find? (fun q => q.1 == k') := by
  induction l with
  | nil => rfl
  | cons a t ih =>
    rw [List.map_cons]
    by_cases hk : (a.1 == k) = true
    · rw [if_pos hk]
      have hak : a.1 = k := beq_iff_eq.mp hk
      have h1 : ¬ (((k, v).1 == k') = true) := by
        simp only [beq_iff_eq]
        exact fun hc => hne hc.symm
      have h2 : ¬ ((a.1 == k') = true) := by
        rw [hak]
        simp only [beq_iff_eq]
        exact fun hc => hne hc.symm
      rw [List.find?_cons_of_neg (p := fun (q : String × Stock) => q.1 == k') _ h1,
        List.find?_cons_of_neg (p := fun (q : String × Stock) => q.1 == k') _ h2, ih]
    · rw [if_neg hk]
      by_cases hk' : (a.1 == k') = true
      · rw [List.find?_cons_of_pos (p := fun (q : String × Stock) => q.1 == k') _ hk',
          List.find?_cons_of_pos (p := fun (q : String × Stock) => q.1 == k') _ hk']
      · rw [List.find?_cons_of_neg (p := fun (q : String × Stock) => q.1 == k') _ hk',
          List.find?_cons_of_neg (p := fun (q : String × Stock) => q.1 == k') _ hk', ih]

/-- Helper: appending a binding for one key leaves lookup of a different key
unchanged (fresh-key branch of the dict assignment). -/
theorem find?_append_single_other (l : List (String × Stock)) (k k' : String)
    (v : Stock) (hne : k' ≠ k) :
    (l ++ [(k, v)]).find? (fun q => q.1 == k') = l.find? (fun q => q.1 == k') := by
  induction l with
  | nil =>
    rw [List.nil_append, List.find?_nil]
    refine List.find?_cons_of_neg (p := fun (q : String × Stock) => q.1 == k') _ ?_ |>.trans List.find?_nil
    simp only [beq_iff_eq]
    exact fun hc => hne hc.symm
  | cons a t ih =>
    rw [List.cons_append]
    by_cases hk' : (a.1 == k') = true
    · rw [List.find?_cons_of_pos (p := fun (q : String × Stock) => q.1 == k') _ hk',
        List.find?_cons_of_pos (p := fun (q : String × Stock) => q.1 == k') _ hk']
    · rw [List.find?_cons_of_neg (p := fun (q : String × Stock) => q.1 == k') _ hk',
        List.find?_cons_of_neg (p := fun (q : String × Stock) => q.1 == k') _ hk', ih]

/-- Helper: lookup after a dict assignment at a different key is unchanged. -/
theorem find?_dictSet_other (l : List (String × Stock)) (k k' : String)
    (v : Stock) (hne : k' ≠ k) :
    (dictSet l k v).find? (fun q => q.1 == k') = l.find? (fun q => q.1 == k') := by
  unfold dictSet
  by_cases h : l.any (fun q => q.1 == k) = true
  · rw [if_pos h]
    exact find?_setEntry_other l k k' v hne
  · rw [if_neg h]
    exact find?_append_single_other l k k' v hne

/-- Helper: inversion of a successful market-level trade: the quantity was
positive, the symbol was bound to some stock, and the new state rebinds that
symbol to the stock extended with exactly one trade stamped now. -/
theorem record_trade_ok_inversion (m m' : GBCE) (symbol : String)
    (trade_type : TradeType) (quantity : Int) (price now : Rat)
    (h : m.record_trade symbol trade_type quantity price now = .ok m') :
    0 < quantity ∧ ∃ stock, m.get_stock symbol = some stock ∧
      m' = ⟨dictSet m.stocks symbol
        { stock with trades := stock.trades ++
          [{ stock_symbol := stock.symbol, trade_type := trade_type,
             quantity := quantity, price := price, timestamp := now }] }⟩ := by
  unfold GBCE.record_trade at h
  by_cases hq : quantity ≤ 0
  · rw [if_pos hq] at h
    exact absurd h (by simp)
  · rw [if_neg hq] at h
    refine ⟨lt_of_not_le hq, ?_⟩
    cases hs : m.get_stock symbol with
    | none =>
      rw [hs] at h
      exact absurd h (by simp)
    | some stock =>
      rw [hs] at h
      exact ⟨stock, rfl, (Except.ok.inj h).symm⟩

/-- Counterexample to C3 as stated: a state reachable through the public
interface (record a trade of quantity 1 at price -1) whose history holds a
trade with nonpositive price — the market validates only the quantity, not
the price. -/
theorem C3_price_positivity_counterexample :
    GBCE.Reachable exMarketNegPrice ∧
    ¬ (∀ p ∈ exMarketNegPrice.stocks, ∀ t ∈ p.2.trades,
        0 < t.quantity ∧ 0 < t.price) := by
  constructor
  · apply GBCE.Reachable.record exMarketNoTrades exMarketNegPrice "TEST1"
      TradeType.BUY 1 (-1) 0
    · exact GBCE.Reachable.base exMarketNoTrades (by decide)
    · rfl
  · intro hall
    have h := hall ("TEST1", { exCommon with trades := [exNegTrade] })
      (by simp [exMarketNegPrice])
    have h2 := (h exNegTrade (by simp)).2
    norm_num [exNegTrade] at h2

/-- C3 amended: through the public interface of the market only the
quantity of a trade is validated, so the invariant that every reachable
state satisfies is positivity of every recorded quantity (price positivity
fails, see the counterexample). -/
theorem C3_quantity_invariant (m : GBCE) (h : GBCE.Reachable m) :
    ∀ p ∈ m.stocks, ∀ t ∈ p.2.trades, 0 < t.quantity := by
  induction h with
  | base m hm =>
    intro p hp t ht
    rw [hm p hp] at ht
    cases ht
  | add m s hr hs ih =>
    intro p hp t ht
    rcases mem_dictSet m.stocks s.symbol s p hp with h1 | h1
    · exact ih p h1 t ht
    · subst h1
      rw [hs] at ht
      cases ht
  | record m m' symbol trade_type quantity price now hr heq ih =>
    rcases record_trade_ok_inversion m m' symbol trade_type quantity price now heq with
      ⟨hq, stock, hs, hm'⟩
    subst hm'
    intro p hp t ht
    rcases mem_dictSet m.stocks symbol _ p hp with h1 | h1
    · exact ih p h1 t ht
    · subst h1
      rcases List.mem_append.mp ht with h2 | h2
      · have hstock : ∃ q ∈ m.stocks, q.2 = stock := by
          unfold GBCE.get_stock at hs
          cases hf : m.stocks.find? (fun q => q.1 == symbol) with
          | none => rw [hf] at hs; cases hs
          | some q =>
            rw [hf] at hs
            exact ⟨q, List.mem_of_find?_eq_some hf, by simpa using hs⟩
        rcases hstock with ⟨q, hq1, hq2⟩
        exact ih q hq1 t (hq2 ▸ h2)
      · rw [List.mem_singleton.mp h2]
        exact hq

/-- Witness for the amended C3 at a concrete reachable state: every quantity
recorded in `exMarketNegPrice` is positive. -/
theorem C3_quantity_invariant_witness :
    exMarketNegPrice.stocks.all
      (fun p => p.2.trades.all (fun t => decide (0 < t.quantity))) = true := by
  have hr : GBCE.Reachable exMarketNegPrice := by
    apply GBCE.Reachable.record exMarketNoTrades exMarketNegPrice "TEST1"
      TradeType.BUY 1 (-1) 0
    · exact GBCE.Reachable.base exMarketNoTrades (by decide)
    · rfl
  have h := C3_quantity_invariant exMarketNegPrice hr
  rw [List.all_eq_true]
  intro p hp
  rw [List.all_eq_true]
  intro t ht
  exact decide_eq_true (h p hp t ht)

/-- Helper: a successful lookup returns an entry of the dict whose key
matches the looked-up symbol. -/
theorem get_stock_entry (m : GBCE) (symbol : String) (stock : Stock)
    (hs : m.get_stock symbol = some stock) :
    ∃ q ∈ m.stocks, q.1 = symbol ∧ q.2 = stock := by
  unfold GBCE.get_stock at hs
  cases hf : m.stocks.find? (fun q => q.1 == symbol) with
  | none => rw [hf] at hs; cases hs
  | some q =>
    rw [hf] at hs
    have hq1 := List.find?_some hf
    simp only [beq_iff_eq] at hq1
    exact ⟨q, List.mem_of_find?_eq_some hf, hq1, by simpa using hs⟩

/-- Helper: lookup after a dict assignment at the same key finds the new
binding, provided the key was present. -/
theorem find?_dictSet_self (l : List (String × Stock)) (k : String) (v : Stock)
    (h : l.any (fun q => q.1 == k) = true) :
    (dictSet l k v).find? (fun q => q.1 == k) = some (k, v) := by
  unfold dictSet
  rw [if_pos h]
  exact find?_setEntry_self l k v h

/-- C10: on a well-formed market (each entry keyed by the symbol of its
security, the mapping invariant of the specification), a successful
market-level trade rebinds the named symbol to its security extended with
exactly the one new trade carrying the given symbol, direction, quantity,
price and the current instant — all other attributes of that security are
kept by the record update — while lookup at every other symbol and the key
list of the mapping are unchanged. -/
theorem C10_record_trade_frame (m : GBCE) (symbol : String)
    (trade_type : TradeType) (quantity : Int) (price now : Rat) (stock : Stock)
    (hwf : ∀ p ∈ m.stocks, p.2.symbol = p.1)
    (hq : 0 < quantity) (hs : m.get_stock symbol = some stock) :
    ∃ m', m.record_trade symbol trade_type quantity price now = .ok m' ∧
      m'.get_stock symbol = some { stock with trades := stock.trades ++
        [{ stock_symbol := symbol, trade_type := trade_type,
           quantity := quantity, price := price, timestamp := now }] } ∧
      (∀ k, k ≠ symbol → m'.get_stock k = m.get_stock k) ∧
      m'.stocks.map Prod.fst = m.stocks.map Prod.fst := by
  rcases get_stock_entry m symbol stock hs with ⟨q, hqmem, hqkey, hqval⟩
  have hsym : stock.symbol = symbol := by
    rw [← hqval, hwf q hqmem, hqkey]
  have hany : m.stocks.any (fun q => q.1 == symbol) = true :=
    List.any_eq_true.mpr ⟨q, hqmem, by simp [hqkey]⟩
  refine ⟨⟨dictSet m.stocks symbol { stock with trades := stock.trades ++
    [{ stock_symbol := symbol, trade_type := trade_type,
       quantity := quantity, price := price, timestamp := now }] }⟩, ?_, ?_, ?_, ?_⟩
  · unfold GBCE.record_trade
    rw [if_neg (not_le.mpr hq), hs, ← hsym]
    rfl
  · show ((dictSet m.stocks symbol _).find? (fun q => q.1 == symbol)).map Prod.snd = _
    rw [find?_dictSet_self]
    · rfl
    · exact hany
  · intro k hk
    show ((dictSet m.stocks symbol _).find? (fun q => q.1 == k)).map Prod.snd = _
    rw [find?_dictSet_other m.stocks symbol k _ hk]
    rfl
  · exact dictSet_keys_of_mem m.stocks symbol _ hany

/-- Witness for C10 at a concrete input: recording a BUY of quantity 50 at
price 120 on the one-security example market. -/
theorem C10_record_trade_witness :
    ∃ m', exMarketNoTrades.record_trade "TEST1" .BUY 50 120 0 = .ok m' ∧
      m'.get_stock "TEST1" = some { exCommon with trades := exCommon.trades ++
        [{ stock_symbol := "TEST1", trade_type := .BUY,
           quantity := 50, price := 120, timestamp := 0 }] } ∧
      (∀ k, k ≠ "TEST1" → m'.get_stock k = exMarketNoTrades.get_stock k) ∧
      m'.stocks.map Prod.fst = exMarketNoTrades.stocks.map Prod.fst :=
  C10_record_trade_frame exMarketNoTrades "TEST1" .BUY 50 120 0 exCommon
    (by decide) (by decide) (by rfl)
